import Mathlib

/-!
Verification of the quiz-bot admin/whitelist core against its source.

This file shallowly embeds the parts of the repository that the checked
claims are about:

* `src/errors.py` — the `ErrorCode` enum;
* `src/core/database_manager/base_database_handler.py` — `_execute`;
* `src/core/database_manager/db_user_handler.py` — the users table
  handler (`user_exists`, `get_user_role`, `add_user`, `update_user`,
  `delete_user`);
* `src/core/database_manager/db_players_habdler.py` — the quiz-players
  handler (`add_player`, `calculate_numeric_level_from_games`,
  `calculate_text_level_from_games`);
* `src/core/middleware/auth_middleware.py` — `AuthMiddleware.__call__`;
* `src/core/routers/admin_panel/user_manager_service.py` — the
  add-user and delete-user conversation handlers;
* `src/core/locale/locale.py` — `BaseLocaleModule._process_data` and
  `BaseLocaleModule._expand_value`.

Conventions of the embedding:

* Python is effectful; handlers become pure functions that take the
  relevant database table as input and return the (possibly updated)
  table together with the response.  The sqlite layer is modeled by an
  `ExecOutcome` parameter saying how the underlying statement run went
  (normal, `aiosqlite.Error`, or another exception), matching the
  branches of `BaseDatabaseHandler._execute`.
* Message sending and logging are I/O and are represented only by which
  response branch a handler takes (an explicit response constructor).
* Python strings are `List Char` in the locale engine (where substring
  structure matters) and Lean `String` in the database layer (where only
  whole-value equality matters).
-/

/-! ## `src/errors.py` — ErrorCode -/

/-- The `ErrorCode` enum of `src/errors.py` (constructor order follows the
source's numeric values 0‥11). -/
inductive ErrorCode where
  | SUCCESSFUL
  | INIT_DB_ERROR
  | HANDLER_REGISTRATION_ERROR
  | ErrorInit
  | FAILED_ERROR
  | TOKEN_ERROR
  | ENGINE_INIT_ERROR
  | PARTIAL_SUCCESS
  | USER_NOT_FOUND
  | DATABASE_ERROR
  | USER_ALREADY_EXISTS
  | INVALID_INPUT
deriving DecidableEq, Repr

/-! ## `base_database_handler.py` — `BaseDatabaseHandler._execute`

`_execute(query, params, fetch)` runs the statement and

* on a normal run with `fetch=True` returns the row dicts, or `None`
  when the row list is empty;
* on a normal run with `fetch=False` commits and returns `None`;
* on `aiosqlite.Error` or any other exception logs and returns `None`.

`ExecOutcome` is how the underlying run went; `rows` is what the query
would fetch on a normal run. -/

/-- How the underlying sqlite execution of one statement went: a normal
run, an `aiosqlite.Error`, or an unexpected exception (the three branches
of `_execute`). -/
inductive ExecOutcome where
  | ok
  | sqlError
  | otherError
deriving DecidableEq, Repr

/-- `BaseDatabaseHandler._execute`: the value returned to the caller,
given the fetch flag, the run outcome and the rows the query would
fetch on a normal run. -/
def _execute {α : Type} (fetch : Bool) (o : ExecOutcome) (rows : List α) :
    Option (List α) :=
  match o with
  | .ok => if fetch then (if rows.isEmpty then none else some rows) else none
  | .sqlError => none
  | .otherError => none

/-! ## `db_user_handler.py` — users table -/

/-- The `UserRole` enum of `db_user_handler.py`. -/
inductive UserRole where
  | admin
  | user
deriving DecidableEq, Repr

/-- One row of the users table: `user_id, username, first_name,
last_name, role` (the columns read by `get_all_users`). -/
structure UserRow where
  user_id : Nat
  username : Option String
  first_name : Option String
  last_name : Option String
  role : UserRole
deriving DecidableEq, Repr

/-- The users table (the whitelist). -/
abbrev UsersTable := List UserRow

/-- `SELECT ... WHERE user_id = ?`: the first row with the given id. -/
def lookupUser (table : UsersTable) (uid : Nat) : Option UserRow :=
  table.find? (fun r => r.user_id == uid)

/-- `DatabaseUserHandler.user_exists` on a normal run: `bool(result)` of
the one-row fetch. -/
def user_exists (table : UsersTable) (uid : Nat) : Bool :=
  (lookupUser table uid).isSome

/-- `DatabaseUserHandler.user_exists` including the failure semantics:
when the lookup errors (`_execute` returns `None`, or an exception is
caught), the method returns `False`. -/
def user_exists_run (lookupFailed : Bool) (table : UsersTable) (uid : Nat) : Bool :=
  if lookupFailed then false else user_exists table uid

/-- `DatabaseUserHandler.get_user_role` on a normal run: the stored role
of the row, or `None` when there is no row. -/
def get_user_role (table : UsersTable) (uid : Nat) : Option UserRole :=
  (lookupUser table uid).map (fun r => r.role)

/-- Field update used by `update_user`: a parameter that was passed
(`some`) overwrites the column, an omitted one (`none`) keeps it. -/
def pickField (new old : Option String) : Option String :=
  match new with
  | some s => some s
  | none => old

/-- `DatabaseUserHandler.update_user`: builds the `SET` list from the
non-`None` arguments; an empty list returns `SUCCESSFUL` at once;
otherwise the `UPDATE` runs (its effect applied only on a normal run)
and the result code is computed from the `_execute` return value. -/
def update_user (table : UsersTable) (o : ExecOutcome) (uid : Nat)
    (username first_name last_name : Option String) (role : Option UserRole) :
    ErrorCode × UsersTable :=
  if username = none ∧ first_name = none ∧ last_name = none ∧ role = none then
    (ErrorCode.SUCCESSFUL, table)
  else
    let table' :=
      if o = .ok then
        table.map (fun r =>
          if r.user_id == uid then
            { r with
              username := pickField username r.username
              first_name := pickField first_name r.first_name
              last_name := pickField last_name r.last_name
              role := role.getD r.role }
          else r)
      else table
    match _execute false o ([] : List UserRow) with
    | none => (ErrorCode.SUCCESSFUL, table')
    | some _ => (ErrorCode.FAILED_ERROR, table')

/-- `DatabaseUserHandler.add_user`: an existing id is routed to
`update_user`; otherwise the `INSERT` runs (its effect applied only on a
normal run) and the result code is computed from the `_execute` return
value. -/
def add_user (table : UsersTable) (o : ExecOutcome) (uid : Nat)
    (username first_name last_name : Option String) (role : UserRole) :
    ErrorCode × UsersTable :=
  if user_exists table uid then
    update_user table o uid username first_name last_name (some role)
  else
    let table' :=
      if o = .ok then table ++ [⟨uid, username, first_name, last_name, role⟩]
      else table
    match _execute false o ([] : List UserRow) with
    | none => (ErrorCode.SUCCESSFUL, table')
    | some _ => (ErrorCode.FAILED_ERROR, table')

/-- `DatabaseUserHandler.delete_user`: a missing id returns
`FAILED_ERROR`; otherwise the `DELETE` runs (its effect applied only on
a normal run) and the result code is computed from the `_execute`
return value. -/
def delete_user (table : UsersTable) (o : ExecOutcome) (uid : Nat) :
    ErrorCode × UsersTable :=
  if user_exists table uid = false then
    (ErrorCode.FAILED_ERROR, table)
  else
    let table' :=
      if o = .ok then table.filter (fun r => !(r.user_id == uid)) else table
    match _execute false o ([] : List UserRow) with
    | none => (ErrorCode.SUCCESSFUL, table')
    | some _ => (ErrorCode.FAILED_ERROR, table')

/-! ## `auth_middleware.py` — `AuthMiddleware.__call__`

The middleware reads `data.get("event_from_user")`; with no sender it
calls the wrapped handler unchanged.  With a sender it checks
`user_exists` (a lookup error makes that return `False`), denying with a
"not registered" notice when false; then it resolves the role, stores it
in `data["user_role"]`, and — when the target handler carries a `role`
flag — denies on mismatch; otherwise the wrapped handler runs with the
resolved role attached.  `lookupFailed` models the database erroring for
this event's whitelist lookup. -/

/-- What `AuthMiddleware.__call__` does with an event: deny (return
`None` before the wrapped handler), or invoke the wrapped handler with
the role that was attached to `data["user_role"]` (`none` when the
middleware never resolved one). -/
inductive AuthOutcome where
  | denied
  | handled (user_role : Option UserRole)
deriving DecidableEq, Repr

/-- `AuthMiddleware.__call__`: `sender` is `data.get("event_from_user")`
(its id), `requiredRole` is `get_flag(data, "role")`. -/
def authMiddlewareCall (lookupFailed : Bool) (table : UsersTable)
    (sender : Option Nat) (requiredRole : Option UserRole) : AuthOutcome :=
  match sender with
  | none => .handled none
  | some uid =>
    if user_exists_run lookupFailed table uid = false then
      .denied
    else
      let user_role := get_user_role table uid
      match requiredRole with
      | some r => if user_role ≠ some r then .denied else .handled user_role
      | none => .handled user_role

/-! ## `db_players_habdler.py` — quiz players -/

/-- The `PlayerLevel` enum (tier labels). -/
inductive PlayerLevel where
  | BEGINNER
  | INTERMEDIATE
  | ADVANCED
  | EXPERT
deriving DecidableEq, Repr

/-- One row of the quiz-players table.  `photo` holds the stored file
path; the file-system side of photo handling is I/O outside this
embedding and never reached on the paths the claims are about. -/
structure PlayerRow where
  first_name : String
  last_name : String
  photo : Option String
  games_played : Int
  player_level : PlayerLevel
  numeric_level : Int
deriving DecidableEq, Repr

/-- The quiz-players table. -/
abbrev PlayersTable := List PlayerRow

/-- The duplicate check of `add_player`: `SELECT player_id ... WHERE
first_name = ? AND last_name = ?` is truthy. -/
def playerExists (table : PlayersTable) (first last : String) : Bool :=
  (table.find? (fun p => p.first_name == first && p.last_name == last)).isSome

/-- `DatabaseQuizPlayerHandler.add_player` on a normal database run: a
negative `numeric_level` returns `INVALID_INPUT` first; then a duplicate
`(first_name, last_name)` returns `USER_ALREADY_EXISTS` with no insert;
otherwise the row is inserted (`photo_path` stands for the stored photo
path after `_process_photo`, which the duplicate path never reaches). -/
def add_player (table : PlayersTable) (first_name last_name : String)
    (photo_path : Option String) (games_played : Int)
    (player_level : PlayerLevel) (numeric_level : Int) :
    ErrorCode × PlayersTable :=
  if numeric_level < 0 then
    (ErrorCode.INVALID_INPUT, table)
  else if playerExists table first_name last_name then
    (ErrorCode.USER_ALREADY_EXISTS, table)
  else
    (ErrorCode.SUCCESSFUL,
      table ++ [⟨first_name, last_name, photo_path, games_played,
        player_level, numeric_level⟩])

/-- `calculate_numeric_level_from_games`: `games_played // 5`, no cap. -/
def calculate_numeric_level_from_games (games_played : Nat) : Nat :=
  games_played / 5

/-- `calculate_text_level_from_games`: bucket `games_played // 25` into
the four tiers. -/
def calculate_text_level_from_games (games_played : Nat) : PlayerLevel :=
  let level_tier := games_played / 25
  if level_tier ≥ 3 then .EXPERT
  else if level_tier = 2 then .ADVANCED
  else if level_tier = 1 then .INTERMEDIATE
  else .BEGINNER

/-- Rank of a tier label in the order the tiers are awarded, for stating
monotonicity. -/
def tierRank : PlayerLevel → Nat
  | .BEGINNER => 0
  | .INTERMEDIATE => 1
  | .ADVANCED => 2
  | .EXPERT => 3

/-! ## `admin_panel` conversation state

The aiogram FSM context per conversation: a current state (from
`AdminStates`; `idle` stands for the cleared/no-state condition that
`state.clear()` produces) plus the scratch data accumulated by
`state.update_data(...)` during the add-user and delete-user flows. -/

/-- Conversation states: `idle` is the cleared context, the rest are the
members of `AdminStates` used by the user-management flows. -/
inductive AdminState where
  | idle
  | waiting_for_user_input
  | waiting_for_role
  | waiting_for_delete_confirmation
deriving DecidableEq, Repr

/-- The string-keyed scratch map of the user-management flows, one
optional field per key ever written (`update_data(user_id=..., ...)` and
`update_data(delete_user_id=...)`). -/
structure FsmData where
  user_id : Option Nat := none
  username : Option String := none
  first_name : Option String := none
  last_name : Option String := none
  delete_user_id : Option Nat := none
deriving DecidableEq, Repr

/-- One conversation's FSM context (state + scratch data). -/
structure FsmCtx where
  state : AdminState := .idle
  data : FsmData := {}
deriving DecidableEq, Repr

/-- The context after `state.clear()`: no active state, no data. -/
def clearedCtx : FsmCtx := {}

/-! ## `user_manager_service.py` — add-user flow, forwarded message -/

/-- The forwarded-from identity of a forwarded message
(`message.forward_from`). -/
structure TgUser where
  id : Nat
  username : Option String
  first_name : Option String
  last_name : Option String
deriving DecidableEq, Repr

/-- Which response `handle_forwarded_message` sends: the
already-registered warning, or the role prompt of `ask_for_role`. -/
inductive ForwardResponse where
  | warningUserExists
  | askRole
deriving DecidableEq, Repr

/-- Result of `UsersManagerService.handle_forwarded_message`: the
response sent, the users table afterwards, and the conversation context
afterwards. -/
structure HandleForwardOut where
  response : ForwardResponse
  table : UsersTable
  fsm : FsmCtx
deriving DecidableEq, Repr

/-- `UsersManagerService.handle_forwarded_message` (reached from
`process_user_input` in state `waiting_for_user_input` on a message
with `forward_from` set), on a normal database run.  When the forwarded
id is already registered it sends the `warning_user_is_exists` text and
returns — no state transition, no `state.clear()`, no database write.
Otherwise it stashes the extracted fields with `update_data`, and
`ask_for_role` re-stores `username` and moves to `waiting_for_role`. -/
def handle_forwarded_message (table : UsersTable) (fsm : FsmCtx)
    (fwd : TgUser) : HandleForwardOut :=
  let user_id := fwd.id
  let username := fwd.username.getD ""
  let first_name := fwd.first_name.getD ""
  let last_name := fwd.last_name.getD ""
  if user_exists table user_id then
    { response := .warningUserExists, table := table, fsm := fsm }
  else
    { response := .askRole
      table := table
      fsm :=
        { state := .waiting_for_role
          data :=
            { fsm.data with
              user_id := some user_id
              username := some username
              first_name := some first_name
              last_name := some last_name } } }

/-! ## `user_manager_service.py` — delete-user confirmation -/

/-- Which response `confirm_delete_callback` sends: the
`error_user_not_found` text, the `error_delete_admin` text, the success
summary, or the `error_delete_user_desc` failure text. -/
inductive ConfirmDeleteResponse where
  | notFound
  | cannotDeleteAdmin
  | deleted
  | deleteFailed
deriving DecidableEq, Repr

/-- Result of `UsersManagerService.confirm_delete_callback`: the
response sent, the users table afterwards, and the conversation context
afterwards. -/
structure ConfirmDeleteOut where
  response : ConfirmDeleteResponse
  table : UsersTable
  fsm : FsmCtx
deriving DecidableEq, Repr

/-- `UsersManagerService.confirm_delete_callback` for the confirm button
carrying `uid`: re-checks `user_exists` (stale target gets the not-found
text and `state.clear()`), re-checks the target is not an admin, then
calls `DatabaseUserHandler.delete_user`; every branch ends in
`state.clear()`.  The whole body is wrapped in a catch-all in the
source, so the handler never lets an exception escape; the model is
accordingly a total function.  `o` is the run outcome of the `DELETE`
statement. -/
def confirm_delete_callback (table : UsersTable) (fsm : FsmCtx)
    (o : ExecOutcome) (uid : Nat) : ConfirmDeleteOut :=
  if user_exists table uid = false then
    { response := .notFound, table := table, fsm := clearedCtx }
  else if get_user_role table uid = some .admin then
    { response := .cannotDeleteAdmin, table := table, fsm := clearedCtx }
  else
    let res := delete_user table o uid
    if res.1 = ErrorCode.SUCCESSFUL then
      { response := .deleted, table := res.2, fsm := clearedCtx }
    else
      { response := .deleteFailed, table := res.2, fsm := clearedCtx }

/-! ## `locale.py` — `BaseLocaleModule`

`_process_data` walks the module's key-value data; every string value is
passed through `_expand_value(value, self._data.items())` with a fresh
`visited` set.  `_expand_value`:

* returns non-pattern values unchanged (`re.search(r"\x7b.*\x7d", value)`,
  where `.` does not cross a newline);
* returns a value already in `visited` unchanged (cycle warning);
* otherwise adds the value to the (shared, mutated) `visited` set,
  collects `replaces = {k: v for k, v in config if k in value and
  isinstance(v, str)}`, returns the value unchanged when that map is
  empty, recursively expands every collected value that itself contains
  a pattern (threading the same `visited` set through the loop, in
  config order), and finally returns `value.format_map(replaces)` —
  which raises `KeyError` on a replacement field whose name is not a
  key of `replaces`.

Embedding notes: strings are `List Char`; the module data holds the
string-valued entries (a non-string value never enters `replaces` and is
copied through `_process_data` unchanged, so it is inert for every
property proved here); Python's `hash(value)` keys of `visited` are
modeled by the strings themselves; `format_map`'s conversion/format-spec
syntax (`!`/`:` inside a replacement field) is not used by any input
considered and is not modeled — a field is the text up to the closing
brace.  The recursion is fuel-indexed; `expandV_fuel_irrelevant` below
proves every fuel past the visited-set bound gives the same answer,
which is exactly the termination argument of the Python code. -/

/-- Decidable equality for `Except`, so that concrete runs of the locale
engine can be checked by `decide`. -/
instance {ε α : Type} [DecidableEq ε] [DecidableEq α] : DecidableEq (Except ε α) :=
  fun x y =>
    match x, y with
    | .ok a, .ok b =>
      if h : a = b then .isTrue (by rw [h])
      else .isFalse (by intro hc; cases hc; exact h rfl)
    | .error e, .error f =>
      if h : e = f then .isTrue (by rw [h])
      else .isFalse (by intro hc; cases hc; exact h rfl)
    | .ok _, .error _ => .isFalse (by intro hc; cases hc)
    | .error _, .ok _ => .isFalse (by intro hc; cases hc)

/-- Python strings, as character lists. -/
abbrev Str := List Char

/-- Module data / `config`: the key-value pairs, in insertion order. -/
abbrev LocaleData := List (Str × Str)

/-- Coerce a Lean string literal to `Str`. -/
def str (s : String) : Str := s.data

/-- Helper for the `re.search(r"\x7b.*\x7d", value)` test: does a closing
brace occur before any newline? -/
def closeBeforeNewline : Str → Bool
  | [] => false
  | c :: rest =>
    if c = '\x7d' then true
    else if c = '\n' then false
    else closeBeforeNewline rest

/-- `re.search(r"\x7b.*\x7d", value)` is truthy: some opening brace is
followed by a closing brace with no newline in between. -/
def hasBracePattern : Str → Bool
  | [] => false
  | c :: rest => (c = '\x7b' && closeBeforeNewline rest) || hasBracePattern rest

/-- `needle` is a leading segment of `hay` (helper for Python's `in`). -/
def leadsIn : Str → Str → Bool
  | [], _ => true
  | _ :: _, [] => false
  | a :: as, b :: bs => a == b && leadsIn as bs

/-- Python's substring test `needle in hay`. -/
def occursIn (needle : Str) : Str → Bool
  | [] => leadsIn needle []
  | c :: rest => leadsIn needle (c :: rest) || occursIn needle rest

/-- Dict lookup in the `replaces` map (keys are unique, first match). -/
def lookupKV : List (Str × Str) → Str → Option Str
  | [], _ => none
  | (k, v) :: rest, key => if k == key then some v else lookupKV rest key

/-- The exceptions `str.format_map` can raise: `KeyError` for a
replacement field absent from the map, `ValueError` for malformed brace
syntax. -/
inductive FmtError where
  | keyError (field : Str)
  | valueError
deriving DecidableEq, Repr

/-- Worker for `str.format_map`.  The second argument is `none` between
replacement fields and `some acc` (reversed field text so far) inside
one.  `\x7b\x7b` and `\x7d\x7d` are escaped braces; an unmatched brace is a
`ValueError`; a completed field is looked up in the map, `KeyError` when
absent. -/
def formatMapGo (env : List (Str × Str)) : Str → Option Str → Except FmtError Str
  | [], none => .ok []
  | [], some _ => .error .valueError
  | c :: rest, some acc =>
    if c = '\x7d' then
      match lookupKV env acc.reverse with
      | none => .error (.keyError acc.reverse)
      | some v =>
        match formatMapGo env rest none with
        | .error e => .error e
        | .ok t => .ok (v ++ t)
    else formatMapGo env rest (some (c :: acc))
  | '\x7b' :: '\x7b' :: rest2, none =>
    (match formatMapGo env rest2 none with
     | .error e => .error e
     | .ok t => .ok ('\x7b' :: t))
  | '\x7b' :: rest, none => formatMapGo env rest (some [])
  | '\x7d' :: '\x7d' :: rest2, none =>
    (match formatMapGo env rest2 none with
     | .error e => .error e
     | .ok t => .ok ('\x7d' :: t))
  | '\x7d' :: _, none => .error .valueError
  | c :: rest, none =>
    match formatMapGo env rest none with
    | .error e => .error e
    | .ok t => .ok (c :: t)

/-- `value.format_map(env)`. -/
def formatMap (value : Str) (env : List (Str × Str)) : Except FmtError Str :=
  formatMapGo env value none

/-- The loop of `_expand_value` over the `replaces` items: each value
that itself contains a brace pattern is replaced by `exp value visited`
(the recursive expansion at the remaining fuel), threading the shared
`visited` set left to right; an exception propagates. -/
def expandItems (exp : Str → Finset Str → Except FmtError (Str × Finset Str)) :
    List (Str × Str) → Finset Str → Except FmtError (List (Str × Str) × Finset Str)
  | [], visited => .ok ([], visited)
  | (k, v) :: rest, visited =>
    if hasBracePattern v then
      match exp v visited with
      | .error e => .error e
      | .ok (v', visited') =>
        match expandItems exp rest visited' with
        | .error e => .error e
        | .ok (rest', visited'') => .ok ((k, v') :: rest', visited'')
    else
      match expandItems exp rest visited with
      | .error e => .error e
      | .ok (rest', visited') => .ok ((k, v) :: rest', visited')

/-- `BaseLocaleModule._expand_value`, fuel-indexed (one fuel step per
nesting level of the Python recursion; `expandV_fuel_irrelevant` shows
any fuel above the visited-set bound is enough).  Returns the expanded
string and the (mutated) `visited` set, or the `format_map` exception. -/
def _expand_value : Nat → LocaleData → Str → Finset Str →
    Except FmtError (Str × Finset Str)
  | 0, _, value, visited => .ok (value, visited)
  | fuel + 1, config, value, visited =>
    if hasBracePattern value = false then .ok (value, visited)
    else if value ∈ visited then .ok (value, visited)
    else
      let visited1 := insert value visited
      let replaces := config.filter (fun kv => occursIn kv.1 value)
      if replaces = [] then .ok (value, visited1)
      else
        match expandItems (fun v vis => _expand_value fuel config v vis)
            replaces visited1 with
        | .error e => .error e
        | .ok (replaces', visited2) =>
          match formatMap value replaces' with
          | .error e => .error e
          | .ok out => .ok (out, visited2)

/-- The distinct values of the module data (arguments of every nested
`_expand_value` call below the top one come from here). -/
def configValues (config : LocaleData) : Finset Str :=
  (config.map Prod.snd).toFinset

/-- Fuel that `expandV_fuel_irrelevant` proves sufficient for every
top-level `_process_data` expansion. -/
def processFuel (data : LocaleData) : Nat := data.length + 1

/-- The loop of `_process_data`: each value is expanded with a fresh
`visited` set; the first `format_map` exception propagates (and aborts
`BaseLocaleModule.__init__`). -/
def processItems (config : LocaleData) : LocaleData → Except FmtError LocaleData
  | [] => .ok []
  | (k, v) :: rest =>
    match _expand_value (processFuel config) config v ∅ with
    | .error e => .error e
    | .ok (v', _) =>
      match processItems config rest with
      | .error e => .error e
      | .ok rest' => .ok ((k, v') :: rest')

/-- `BaseLocaleModule._process_data` (hence `BaseLocaleModule.__init__`):
the processed data of a module, or the exception that makes module
construction fail. -/
def _process_data (data : LocaleData) : Except FmtError LocaleData :=
  processItems data data

/-! ## Theorems -/

/-- Closed form of `calculate_text_level_from_games` in terms of the
games count itself (helper). -/
theorem calc_text_eq (n : Nat) :
    calculate_text_level_from_games n =
      if 75 ≤ n then .EXPERT else if 50 ≤ n then .ADVANCED
      else if 25 ≤ n then .INTERMEDIATE else .BEGINNER := by
  simp only [calculate_text_level_from_games]
  split_ifs <;> first | rfl | omega

/-- C1: for every games-played value `n`,
`calculate_numeric_level_from_games n` is `n / 5` (integer division,
uncapped), and `calculate_text_level_from_games n` is BEGINNER for
`n < 25`, INTERMEDIATE for `25 ≤ n < 50`, ADVANCED for `50 ≤ n < 75`
and EXPERT for `75 ≤ n`; hence the tier is monotone non-decreasing in
`n` with boundaries exactly at 25, 50 and 75. -/
theorem level_from_games_spec :
    (∀ n : Nat, calculate_numeric_level_from_games n = n / 5) ∧
    (∀ n : Nat,
      (calculate_text_level_from_games n = .BEGINNER ↔ n < 25) ∧
      (calculate_text_level_from_games n = .INTERMEDIATE ↔ 25 ≤ n ∧ n < 50) ∧
      (calculate_text_level_from_games n = .ADVANCED ↔ 50 ≤ n ∧ n < 75) ∧
      (calculate_text_level_from_games n = .EXPERT ↔ 75 ≤ n)) ∧
    (∀ m n : Nat, m ≤ n →
      tierRank (calculate_text_level_from_games m) ≤
        tierRank (calculate_text_level_from_games n)) := by
  refine ⟨fun n => rfl, fun n => ?_, fun m n h => ?_⟩
  · rw [calc_text_eq]
    refine ⟨?_, ?_, ?_, ?_⟩ <;> (split_ifs <;> simp_all <;> omega)
  · rw [calc_text_eq, calc_text_eq]
    split_ifs <;> simp [tierRank] <;> omega

/-- Witness for C1: the monotonicity part at 30 ≤ 80. -/
theorem level_from_games_spec_witness :
    (30 : Nat) ≤ 80 ∧
    tierRank (calculate_text_level_from_games 30) ≤
      tierRank (calculate_text_level_from_games 80) :=
  ⟨by decide, level_from_games_spec.2.2 30 80 (by decide)⟩

/-- C2: for an event carrying a sender id, `AuthMiddleware.__call__`
denies exactly when the sender is absent from the user table (a
whitelist-lookup error counting as absent) or the target handler
declares a required role that differs from the sender's stored role; in
every other case the wrapped handler is invoked with the resolved role
attached to the processing context. -/
theorem auth_gate_decision (lookupFailed : Bool) (table : UsersTable)
    (uid : Nat) (requiredRole : Option UserRole) :
    (user_exists_run lookupFailed table uid = false ↔
      (lookupFailed = true ∨ lookupUser table uid = none)) ∧
    (authMiddlewareCall lookupFailed table (some uid) requiredRole = .denied ↔
      (user_exists_run lookupFailed table uid = false ∨
        ∃ r, requiredRole = some r ∧ get_user_role table uid ≠ some r)) ∧
    (authMiddlewareCall lookupFailed table (some uid) requiredRole ≠ .denied →
      authMiddlewareCall lookupFailed table (some uid) requiredRole =
        .handled (get_user_role table uid)) := by
  refine ⟨?_, ?_, ?_⟩
  · cases lookupFailed <;>
      simp [user_exists_run, user_exists, Option.isSome_iff_exists,
        Option.eq_none_iff_forall_not_mem]
  · by_cases hex : user_exists_run lookupFailed table uid = false
    · simp only [authMiddlewareCall, hex, if_true]
      tauto
    · rw [Bool.not_eq_false] at hex
      simp only [authMiddlewareCall, hex]
      cases requiredRole with
      | none => simp [hex]
      | some r =>
        by_cases hr : get_user_role table uid = some r
        · simp [hr, hex]
        · simp [hr, hex]
  · intro hnd
    by_cases hex : user_exists_run lookupFailed table uid = false
    · simp only [authMiddlewareCall, hex, if_true] at hnd
      exact absurd rfl hnd
    · rw [Bool.not_eq_false] at hex
      simp only [authMiddlewareCall, hex] at hnd ⊢
      cases requiredRole with
      | none => simp
      | some r =>
        by_cases hr : get_user_role table uid = some r
        · simp [hr]
        · simp [hr] at hnd

/-- Witness for C2: an unregistered id is denied; a registered id with
no role requirement reaches the handler with its role attached. -/
theorem auth_gate_decision_witness :
    user_exists_run false [⟨1, none, none, none, UserRole.admin⟩] 2 = false ∧
    authMiddlewareCall false [⟨1, none, none, none, UserRole.admin⟩] (some 2)
      (some .admin) = .denied ∧
    authMiddlewareCall false [⟨1, none, none, none, UserRole.admin⟩] (some 1)
      none = .handled (get_user_role [⟨1, none, none, none, UserRole.admin⟩] 1) :=
  ⟨by decide,
    (auth_gate_decision false [⟨1, none, none, none, UserRole.admin⟩] 2
      (some .admin)).2.1.mpr (Or.inl (by decide)),
    (auth_gate_decision false [⟨1, none, none, none, UserRole.admin⟩] 1
      none).2.2 (by decide)⟩

/-- C8: an event whose processing context carries no
`event_from_user` entry is passed to the wrapped handler
unconditionally — the outcome does not depend on the user table, on the
lookup succeeding, or on any declared role requirement, and no role is
attached. -/
theorem auth_no_sender_passthrough (lookupFailed : Bool) (table : UsersTable)
    (requiredRole : Option UserRole) :
    authMiddlewareCall lookupFailed table none requiredRole =
      .handled none := rfl

/-- Counterexample for C3: with `numeric_level = -1`, `add_player` on a
table already holding ("Ann", "Lee") returns `INVALID_INPUT`, not
`USER_ALREADY_EXISTS` — the negative-level check precedes the duplicate
check. -/
theorem add_player_duplicate_counterexample :
    playerExists [⟨"Ann", "Lee", none, 0, .BEGINNER, 0⟩] "Ann" "Lee" = true ∧
    add_player [⟨"Ann", "Lee", none, 0, .BEGINNER, 0⟩] "Ann" "Lee" none 0
        .BEGINNER (-1) =
      (ErrorCode.INVALID_INPUT, [⟨"Ann", "Lee", none, 0, .BEGINNER, 0⟩]) ∧
    ErrorCode.INVALID_INPUT ≠ ErrorCode.USER_ALREADY_EXISTS := by decide

/-- C3 (amended): for every players table already containing a row with
the given first and last name, `add_player` with a non-negative
`numeric_level` argument returns `USER_ALREADY_EXISTS` and leaves the
table — the prior record and every other row — unchanged (with a
negative `numeric_level` it instead returns `INVALID_INPUT`, likewise
without touching the table). -/
theorem add_player_duplicate_rejected (table : PlayersTable)
    (first_name last_name : String) (photo_path : Option String)
    (games_played : Int) (player_level : PlayerLevel) (numeric_level : Int)
    (hnl : 0 ≤ numeric_level)
    (hdup : playerExists table first_name last_name = true) :
    add_player table first_name last_name photo_path games_played
        player_level numeric_level =
      (ErrorCode.USER_ALREADY_EXISTS, table) := by
  unfold add_player
  rw [if_neg (by omega), if_pos hdup]

/-- Witness for the amended C3. -/
theorem add_player_duplicate_rejected_witness :
    (0 : Int) ≤ 6 ∧
    playerExists [⟨"Ann", "Lee", none, 0, .BEGINNER, 0⟩] "Ann" "Lee" = true ∧
    add_player [⟨"Ann", "Lee", none, 0, .BEGINNER, 0⟩] "Ann" "Lee" none 30
        .INTERMEDIATE 6 =
      (ErrorCode.USER_ALREADY_EXISTS, [⟨"Ann", "Lee", none, 0, .BEGINNER, 0⟩]) :=
  ⟨by decide, by decide,
    add_player_duplicate_rejected [⟨"Ann", "Lee", none, 0, .BEGINNER, 0⟩]
      "Ann" "Lee" none 30 .INTERMEDIATE 6 (by decide) (by decide)⟩

/-- Counterexample for C5: a forwarded message for an already-registered
id takes the warning branch, yet the conversation is NOT returned to the
idle state — `handle_forwarded_message` neither clears nor changes the
FSM state, so it stays `waiting_for_user_input`. -/
theorem forwarded_existing_user_counterexample :
    (handle_forwarded_message [⟨42, some "u", some "F", some "L", .user⟩]
        { state := .waiting_for_user_input, data := {} }
        ⟨42, some "u", some "F", some "L"⟩).response = .warningUserExists ∧
    (handle_forwarded_message [⟨42, some "u", some "F", some "L", .user⟩]
        { state := .waiting_for_user_input, data := {} }
        ⟨42, some "u", some "F", some "L"⟩).fsm.state ≠ AdminState.idle := by
  decide

/-- C5 (amended): for every forwarded message whose forwarded-from id is
already registered, `handle_forwarded_message` shows the warning and
aborts the flow — no transition to the role-selection step, no scratch
write, and no database write (the stored record, including its role, is
unchanged) — but the conversation context is left exactly as it was
(still `waiting_for_user_input`), not reset to idle. -/
theorem forwarded_existing_user_aborts (table : UsersTable) (fsm : FsmCtx)
    (fwd : TgUser) (hex : user_exists table fwd.id = true) :
    handle_forwarded_message table fsm fwd =
      { response := .warningUserExists, table := table, fsm := fsm } := by
  unfold handle_forwarded_message
  rw [if_pos hex]

/-- Witness for the amended C5. -/
theorem forwarded_existing_user_aborts_witness :
    user_exists [⟨42, some "u", some "F", some "L", .user⟩] 42 = true ∧
    handle_forwarded_message [⟨42, some "u", some "F", some "L", .user⟩]
        { state := .waiting_for_user_input, data := {} }
        ⟨42, some "u", some "F", some "L"⟩ =
      { response := .warningUserExists,
        table := [⟨42, some "u", some "F", some "L", .user⟩],
        fsm := { state := .waiting_for_user_input, data := {} } } :=
  ⟨by decide,
    forwarded_existing_user_aborts [⟨42, some "u", some "F", some "L", .user⟩]
      { state := .waiting_for_user_input, data := {} }
      ⟨42, some "u", some "F", some "L"⟩ (by decide)⟩

/-- C4: on a delete-user confirmation whose target id is no longer in
the user table, `confirm_delete_callback` re-validates existence,
answers with the not-found notice, deletes nothing (table unchanged),
clears the conversation state, and — being a total function modelling a
handler whose body is wrapped in a catch-all — raises no exception; when
the target is still present it re-validates that it is non-admin before
deleting, aborting (table unchanged, state cleared) on an admin. -/
theorem confirm_delete_revalidates (table : UsersTable) (fsm : FsmCtx)
    (o : ExecOutcome) (uid : Nat) :
    (user_exists table uid = false →
      confirm_delete_callback table fsm o uid =
        { response := .notFound, table := table, fsm := clearedCtx }) ∧
    (get_user_role table uid = some .admin →
      confirm_delete_callback table fsm o uid =
        { response := .cannotDeleteAdmin, table := table, fsm := clearedCtx }) := by
  constructor
  · intro hmiss
    unfold confirm_delete_callback
    rw [if_pos hmiss]
  · intro hadm
    have hex : user_exists table uid = true := by
      unfold get_user_role at hadm
      unfold user_exists
      cases h : lookupUser table uid with
      | none => rw [h] at hadm; simp at hadm
      | some r => simp
    unfold confirm_delete_callback
    rw [if_neg (by simp [hex]), if_pos hadm]

/-- Witness for C4: a stale target (id 9 not in the table) and an admin
target (id 5). -/
theorem confirm_delete_revalidates_witness :
    user_exists [⟨5, none, none, none, UserRole.admin⟩] 9 = false ∧
    confirm_delete_callback [⟨5, none, none, none, UserRole.admin⟩]
        { state := .waiting_for_delete_confirmation,
          data := { delete_user_id := some 9 } } .ok 9 =
      { response := .notFound,
        table := [⟨5, none, none, none, UserRole.admin⟩],
        fsm := clearedCtx } ∧
    get_user_role [⟨5, none, none, none, UserRole.admin⟩] 5 = some .admin ∧
    confirm_delete_callback [⟨5, none, none, none, UserRole.admin⟩]
        { state := .waiting_for_delete_confirmation,
          data := { delete_user_id := some 5 } } .ok 5 =
      { response := .cannotDeleteAdmin,
        table := [⟨5, none, none, none, UserRole.admin⟩],
        fsm := clearedCtx } :=
  ⟨by decide,
    (confirm_delete_revalidates [⟨5, none, none, none, UserRole.admin⟩]
      { state := .waiting_for_delete_confirmation,
        data := { delete_user_id := some 9 } } .ok 9).1 (by decide),
    by decide,
    (confirm_delete_revalidates [⟨5, none, none, none, UserRole.admin⟩]
      { state := .waiting_for_delete_confirmation,
        data := { delete_user_id := some 5 } } .ok 5).2 (by decide)⟩

/-- C9: `_execute` with `fetch=False` returns `None` on every path
(normal commit, `aiosqlite.Error`, unexpected exception alike); hence
the failure branches of `add_user`, `update_user` and `delete_user`
guarded by a non-`None` `_execute` result are unreachable and each
returns `SUCCESSFUL` whenever no exception escapes — `add_user` and
`update_user` always, `delete_user` whenever the target exists — even
when the underlying INSERT/UPDATE/DELETE failed (last conjunct: the
DELETE errors, the row is still there, the code still says
`SUCCESSFUL`). -/
theorem execute_mutations_report_success :
    (∀ (α : Type) (o : ExecOutcome) (rows : List α),
      _execute false o rows = none) ∧
    (∀ (table : UsersTable) (o : ExecOutcome) (uid : Nat)
        (username first_name last_name : Option String) (role : UserRole),
      (add_user table o uid username first_name last_name role).1 =
        ErrorCode.SUCCESSFUL) ∧
    (∀ (table : UsersTable) (o : ExecOutcome) (uid : Nat)
        (username first_name last_name : Option String) (role : Option UserRole),
      (update_user table o uid username first_name last_name role).1 =
        ErrorCode.SUCCESSFUL) ∧
    (∀ (table : UsersTable) (o : ExecOutcome) (uid : Nat),
      user_exists table uid = true →
      (delete_user table o uid).1 = ErrorCode.SUCCESSFUL) ∧
    (delete_user [⟨7, none, none, none, .user⟩] .sqlError 7 =
      (ErrorCode.SUCCESSFUL, [⟨7, none, none, none, .user⟩])) := by
  have hexec : ∀ (α : Type) (o : ExecOutcome) (rows : List α),
      _execute false o rows = none := by
    intro α o rows
    cases o <;> rfl
  have hupd : ∀ (table : UsersTable) (o : ExecOutcome) (uid : Nat)
      (username first_name last_name : Option String) (role : Option UserRole),
      (update_user table o uid username first_name last_name role).1 =
        ErrorCode.SUCCESSFUL := by
    intro table o uid username first_name last_name role
    unfold update_user
    split_ifs <;> first | rfl | rw [hexec]
  refine ⟨hexec, ?_, hupd, ?_, by decide⟩
  · intro table o uid username first_name last_name role
    unfold add_user
    split_ifs
    · exact hupd table o uid username first_name last_name (some role)
    · rw [hexec]
    · rw [hexec]
  · intro table o uid hex
    unfold delete_user
    rw [if_neg (by simp [hex]), hexec]

/-- Witness for C9: the existing-target delete conjunct at id 7. -/
theorem execute_mutations_report_success_witness :
    user_exists [⟨7, none, none, none, UserRole.user⟩] 7 = true ∧
    (delete_user [⟨7, none, none, none, UserRole.user⟩] .otherError 7).1 =
      ErrorCode.SUCCESSFUL :=
  ⟨by decide,
    execute_mutations_report_success.2.2.2.1
      [⟨7, none, none, none, UserRole.user⟩] .otherError 7 (by decide)⟩

/-! ### Locale engine lemmas

`expand_value_succ` / `expand_value_stable` prove the fuel index of
`_expand_value` irrelevant above the size of the not-yet-visited value
set — i.e. the Python recursion, whose nesting depth the fuel counts,
terminates: every nested call's argument is a config value the shared
`visited` set does not yet contain, and each level inserts one more. -/

/-- The replacement loop leaves items without a brace pattern untouched
(helper). -/
theorem expandItems_flat (f : Str → Finset Str → Except FmtError (Str × Finset Str)) :
    ∀ (items : List (Str × Str)) (visited : Finset Str),
      (∀ kv ∈ items, hasBracePattern kv.2 = false) →
      expandItems f items visited = .ok (items, visited) := by
  intro items
  induction items with
  | nil => intro visited _; rfl
  | cons kv rest ih =>
    intro visited hflat
    obtain ⟨k, v⟩ := kv
    have hv : hasBracePattern v = false := hflat (k, v) (List.mem_cons_self _ _)
    simp only [expandItems, hv, Bool.false_eq_true, if_false]
    rw [ih visited (fun kv hkv => hflat kv (List.mem_cons_of_mem _ hkv))]

/-- The replacement loop only ever grows the shared `visited` set
(helper). -/
theorem expandItems_grow (f : Str → Finset Str → Except FmtError (Str × Finset Str))
    (hf : ∀ v vis r, f v vis = .ok r → vis ⊆ r.2) :
    ∀ (items : List (Str × Str)) (visited : Finset Str)
      (out : List (Str × Str) × Finset Str),
      expandItems f items visited = .ok out → visited ⊆ out.2 := by
  intro items
  induction items with
  | nil =>
    intro visited out h
    simp only [expandItems, Except.ok.injEq] at h
    rw [← h]
  | cons kv rest ih =>
    intro visited out h
    obtain ⟨k, v⟩ := kv
    simp only [expandItems] at h
    by_cases hv : hasBracePattern v = true
    · rw [if_pos hv] at h
      cases hfv : f v visited with
      | error e => rw [hfv] at h; cases h
      | ok r =>
        rw [hfv] at h
        obtain ⟨v', vis'⟩ := r
        dsimp only at h
        cases hrest : expandItems f rest vis' with
        | error e => rw [hrest] at h; cases h
        | ok out2 =>
          rw [hrest] at h
          simp only [Except.ok.injEq] at h
          have h2 : out.2 = out2.2 := by rw [← h]
          rw [h2]
          exact subset_trans (hf v visited (v', vis') hfv) (ih vis' out2 hrest)
    · rw [if_neg hv] at h
      cases hrest : expandItems f rest visited with
      | error e => rw [hrest] at h; cases h
      | ok out2 =>
        rw [hrest] at h
        simp only [Except.ok.injEq] at h
        have h2 : out.2 = out2.2 := by rw [← h]
        rw [h2]
        exact ih visited out2 hrest

/-- `_expand_value` only ever grows the `visited` set (helper, mirrors
the Python code never removing from the shared set). -/
theorem expand_value_grow :
    ∀ (fuel : Nat) (config : LocaleData) (value : Str) (visited : Finset Str)
      (r : Str × Finset Str),
      _expand_value fuel config value visited = .ok r → visited ⊆ r.2 := by
  intro fuel
  induction fuel with
  | zero =>
    intro config value visited r h
    simp only [_expand_value, Except.ok.injEq] at h
    rw [← h]
  | succ fuel ih =>
    intro config value visited r h
    simp only [_expand_value] at h
    by_cases h1 : hasBracePattern value = false
    · rw [if_pos h1] at h
      simp only [Except.ok.injEq] at h
      rw [← h]
    · rw [if_neg h1] at h
      by_cases h2 : value ∈ visited
      · rw [if_pos h2] at h
        simp only [Except.ok.injEq] at h
        rw [← h]
      · rw [if_neg h2] at h
        by_cases h3 : config.filter (fun kv => occursIn kv.1 value) = []
        · rw [if_pos h3] at h
          simp only [Except.ok.injEq] at h
          rw [← h]
          exact Finset.subset_insert _ _
        · rw [if_neg h3] at h
          cases hit : expandItems (fun v vis => _expand_value fuel config v vis)
              (config.filter (fun kv => occursIn kv.1 value))
              (insert value visited) with
          | error e => rw [hit] at h; cases h
          | ok out2 =>
            rw [hit] at h
            obtain ⟨rps', vis2⟩ := out2
            dsimp only at h
            cases hfm : formatMap value rps' with
            | error e => rw [hfm] at h; cases h
            | ok out =>
              rw [hfm] at h
              simp only [Except.ok.injEq] at h
              have h4 : r.2 = vis2 := by rw [← h]
              rw [h4]
              refine subset_trans (Finset.subset_insert value visited) ?_
              exact expandItems_grow _ (fun v vis rr hh => ih config v vis rr hh)
                _ _ (rps', vis2) hit

/-- Every value of a config pair is in `configValues` (helper). -/
theorem mem_configValues {config : LocaleData} {kv : Str × Str}
    (h : kv ∈ config) : kv.2 ∈ configValues config := by
  unfold configValues
  rw [List.mem_toFinset]
  exact List.mem_map_of_mem Prod.snd h

/-- Fuel congruence for the replacement loop: once expansion at fuel `g`
agrees with fuel `g+1` below the bound, the loop agrees too (helper). -/
theorem expandItems_fuel (g : Nat) (config : LocaleData)
    (hP : ∀ (value : Str) (visited : Finset Str),
      (insert value (configValues config) \ visited).card ≤ g →
      _expand_value (g+1) config value visited =
        _expand_value g config value visited) :
    ∀ (items : List (Str × Str)) (visited : Finset Str),
      (∀ kv ∈ items, kv.2 ∈ configValues config) →
      (configValues config \ visited).card ≤ g →
      expandItems (fun v vis => _expand_value (g+1) config v vis) items visited =
        expandItems (fun v vis => _expand_value g config v vis) items visited := by
  intro items
  induction items with
  | nil => intro visited _ _; rfl
  | cons kv rest ihr =>
    intro visited hmem hcard
    obtain ⟨k, v⟩ := kv
    have hvCV : v ∈ configValues config := hmem (k, v) (List.mem_cons_self _ _)
    simp only [expandItems]
    by_cases hv : hasBracePattern v = true
    · rw [if_pos hv, if_pos hv]
      have hb : (insert v (configValues config) \ visited).card ≤ g := by
        rw [Finset.insert_eq_self.mpr hvCV]
        exact hcard
      rw [hP v visited hb]
      cases hfv : _expand_value g config v visited with
      | error e => rfl
      | ok r =>
        obtain ⟨v', vis'⟩ := r
        dsimp only
        have hsub : visited ⊆ vis' :=
          expand_value_grow g config v visited (v', vis') hfv
        have hcard' : (configValues config \ vis').card ≤ g :=
          le_trans (Finset.card_le_card
            (Finset.sdiff_subset_sdiff (Finset.Subset.refl _) hsub)) hcard
        rw [ihr vis' (fun kv hkv => hmem kv (List.mem_cons_of_mem _ hkv)) hcard']
    · rw [if_neg hv, if_neg hv]
      rw [ihr visited (fun kv hkv => hmem kv (List.mem_cons_of_mem _ hkv)) hcard]

/-- One extra unit of fuel changes nothing once the fuel covers the
number of not-yet-visited candidate values: the termination measure of
the Python recursion. -/
theorem expand_value_succ :
    ∀ (fuel : Nat) (config : LocaleData) (value : Str) (visited : Finset Str),
      (insert value (configValues config) \ visited).card ≤ fuel →
      _expand_value (fuel+1) config value visited =
        _expand_value fuel config value visited := by
  intro fuel
  induction fuel with
  | zero =>
    intro config value visited hB
    have hvis : value ∈ visited := by
      have h0 : (insert value (configValues config) \ visited).card = 0 :=
        Nat.le_zero.mp hB
      have he : insert value (configValues config) \ visited = ∅ :=
        Finset.card_eq_zero.mp h0
      by_contra hnot
      have : value ∈ insert value (configValues config) \ visited :=
        Finset.mem_sdiff.mpr ⟨Finset.mem_insert_self _ _, hnot⟩
      rw [he] at this
      exact Finset.not_mem_empty value this
    simp only [_expand_value]
    by_cases h1 : hasBracePattern value = false
    · rw [if_pos h1]
    · rw [if_neg h1, if_pos hvis]
  | succ g ihg =>
    intro config value visited hB
    by_cases h1 : hasBracePattern value = false
    · conv_lhs => rw [_expand_value]
      conv_rhs => rw [_expand_value]
      rw [if_pos h1, if_pos h1]
    · by_cases h2 : value ∈ visited
      · conv_lhs => rw [_expand_value]
        conv_rhs => rw [_expand_value]
        rw [if_neg h1, if_neg h1, if_pos h2, if_pos h2]
      · by_cases h3 : config.filter (fun kv => occursIn kv.1 value) = []
        · conv_lhs => rw [_expand_value]
          conv_rhs => rw [_expand_value]
          dsimp only
          rw [if_neg h1, if_neg h1, if_neg h2, if_neg h2, if_pos h3, if_pos h3]
        · have hcard' : (configValues config \ insert value visited).card ≤ g := by
            have hvm : value ∈ insert value (configValues config) \ visited :=
              Finset.mem_sdiff.mpr ⟨Finset.mem_insert_self _ _, h2⟩
            have hsub : configValues config \ insert value visited ⊆
                (insert value (configValues config) \ visited).erase value := by
              intro x hx
              rcases Finset.mem_sdiff.mp hx with ⟨hxCV, hxnot⟩
              have hxne : x ≠ value := fun he =>
                hxnot (he ▸ Finset.mem_insert_self value visited)
              have hxnv : x ∉ visited := fun hv =>
                hxnot (Finset.mem_insert_of_mem hv)
              exact Finset.mem_erase.mpr
                ⟨hxne, Finset.mem_sdiff.mpr ⟨Finset.mem_insert_of_mem hxCV, hxnv⟩⟩
            have hc1 := Finset.card_erase_of_mem hvm
            have hc2 := Finset.card_le_card hsub
            omega
          conv_lhs => rw [_expand_value]
          conv_rhs => rw [_expand_value]
          dsimp only
          rw [if_neg h1, if_neg h1, if_neg h2, if_neg h2, if_neg h3, if_neg h3]
          rw [expandItems_fuel g config (ihg config)
            (config.filter (fun kv => occursIn kv.1 value)) (insert value visited)
            (fun kv hkv => mem_configValues (List.mem_of_mem_filter hkv)) hcard']

/-- Adding any amount of fuel above the bound changes nothing
(helper, iterates `expand_value_succ`). -/
theorem expand_value_stable :
    ∀ (k fuel : Nat) (config : LocaleData) (value : Str) (visited : Finset Str),
      (insert value (configValues config) \ visited).card ≤ fuel →
      _expand_value (fuel + k) config value visited =
        _expand_value fuel config value visited := by
  intro k
  induction k with
  | zero => intro fuel config value visited _; rfl
  | succ k ihk =>
    intro fuel config value visited hB
    have he : fuel + (k + 1) = (fuel + k) + 1 := rfl
    rw [he, expand_value_succ (fuel + k) config value visited
      (le_trans hB (Nat.le_add_right fuel k))]
    exact ihk fuel config value visited hB

/-- C6: `_expand_value` terminates on cyclic templates.  First conjunct:
the result is independent of the fuel once the fuel covers the number of
not-yet-visited candidate values — the Python recursion, whose nesting
depth the fuel counts, is bounded and cannot recurse forever.  Second
conjunct: a value revisited mid-expansion (its hash already in the
visited set) is returned unexpanded, with a warning, not an error.
Third/fourth conjuncts: a directly self-referential template and a
transitive two-template cycle come back from `_process_data` unexpanded
as `.ok`, not rejected as an error. -/
theorem locale_cycle_detection :
    (∀ (config : LocaleData) (value : Str) (visited : Finset Str) (fuel₁ fuel₂ : Nat),
      (insert value (configValues config) \ visited).card ≤ fuel₁ →
      (insert value (configValues config) \ visited).card ≤ fuel₂ →
      _expand_value fuel₁ config value visited =
        _expand_value fuel₂ config value visited) ∧
    (∀ (fuel : Nat) (config : LocaleData) (value : Str) (visited : Finset Str),
      hasBracePattern value = true → value ∈ visited →
      _expand_value (fuel + 1) config value visited = .ok (value, visited)) ∧
    (_process_data [(str "t", str "{t}")] = .ok [(str "t", str "{t}")]) ∧
    (_process_data [(str "a", str "{b}"), (str "b", str "{a}")] =
      .ok [(str "a", str "{b}"), (str "b", str "{a}")]) := by
  refine ⟨?_, ?_, by decide, by decide⟩
  · intro config value visited fuel₁ fuel₂ h1 h2
    set B := (insert value (configValues config) \ visited).card with hB
    have e1 : _expand_value fuel₁ config value visited =
        _expand_value B config value visited := by
      have : B + (fuel₁ - B) = fuel₁ := by omega
      rw [← this]
      exact expand_value_stable (fuel₁ - B) B config value visited (le_refl B)
    have e2 : _expand_value fuel₂ config value visited =
        _expand_value B config value visited := by
      have : B + (fuel₂ - B) = fuel₂ := by omega
      rw [← this]
      exact expand_value_stable (fuel₂ - B) B config value visited (le_refl B)
    rw [e1, e2]
  · intro fuel config value visited hpat hvis
    simp only [_expand_value]
    rw [if_neg (by simp [hpat]), if_pos hvis]

/-- Witness for C6: fuel irrelevance on the two-template cycle, and the
revisit branch on the self-referential template. -/
theorem locale_cycle_detection_witness :
    (insert (str "{b}")
        (configValues [(str "a", str "{b}"), (str "b", str "{a}")]) \
      (∅ : Finset Str)).card ≤ 3 ∧
    _expand_value 3 [(str "a", str "{b}"), (str "b", str "{a}")] (str "{b}") ∅ =
      _expand_value 7 [(str "a", str "{b}"), (str "b", str "{a}")] (str "{b}") ∅ ∧
    hasBracePattern (str "{t}") = true ∧
    _expand_value 3 [(str "t", str "{t}")] (str "{t}") {str "{t}"} =
      .ok (str "{t}", {str "{t}"}) :=
  ⟨by decide,
    locale_cycle_detection.1 [(str "a", str "{b}"), (str "b", str "{a}")]
      (str "{b}") ∅ 3 7 (by decide) (by decide),
    by decide,
    locale_cycle_detection.2.1 2 [(str "t", str "{t}")] (str "{t}")
      {str "{t}"} (by decide) (by decide)⟩

/-- C7: the module data with a = "X", b = "Y" expands the template
"{a} and {b}" to "X and Y" through `_process_data` (first conjunct); in
general, for a value containing a brace pattern, the replacement map is
exactly the sibling keys occurring as textual substrings of the value,
each bound to its (expanded) sibling value, and the result is
`value.format_map` of that map (second conjunct, stated for sibling
values that are themselves fully expanded, i.e. pattern-free). -/
theorem locale_expansion_substitutes :
    (_process_data [(str "a", str "X"), (str "b", str "Y"),
        (str "t", str "{a} and {b}")] =
      .ok [(str "a", str "X"), (str "b", str "Y"), (str "t", str "X and Y")]) ∧
    (∀ (config : LocaleData) (value : Str) (fuel : Nat),
      hasBracePattern value = true →
      (∀ kv ∈ config, hasBracePattern kv.2 = false) →
      config.filter (fun kv => occursIn kv.1 value) ≠ [] →
      _expand_value (fuel + 1) config value ∅ =
        (formatMap value (config.filter (fun kv => occursIn kv.1 value))).map
          (fun out => (out, insert value (∅ : Finset Str)))) := by
  refine ⟨by decide, ?_⟩
  intro config value fuel hpat hflat hne
  simp only [_expand_value]
  rw [if_neg (by simp [hpat]), if_neg (Finset.not_mem_empty value), if_neg hne]
  rw [expandItems_flat _ (config.filter (fun kv => occursIn kv.1 value))
    (insert value ∅) (fun kv hkv => hflat kv (List.mem_of_mem_filter hkv))]
  cases hfm : formatMap value (config.filter (fun kv => occursIn kv.1 value)) with
  | error e => simp [Except.map, hfm]
  | ok out => simp [Except.map, hfm]

/-- Witness for C7: the general substitution conjunct at the claim's own
example template. -/
theorem locale_expansion_substitutes_witness :
    hasBracePattern (str "{a} and {b}") = true ∧
    _expand_value 2 [(str "a", str "X"), (str "b", str "Y")]
        (str "{a} and {b}") ∅ =
      .ok (str "X and Y", insert (str "{a} and {b}") (∅ : Finset Str)) :=
  ⟨by decide,
    (locale_expansion_substitutes.2 [(str "a", str "X"), (str "b", str "Y")]
      (str "{a} and {b}") 1 (by decide) (by decide) (by decide)).trans (by decide)⟩

/-- C10: non-cyclic data with a = "X" and t = "{a} {b}" — key "b" is not
a sibling key (second conjunct) while sibling key "a" does occur in the
template (third conjunct) — makes `_process_data` raise
`KeyError("b")` out of `format_map` instead of returning a string, so
`BaseLocaleModule` construction fails for the whole module. -/
theorem locale_missing_key_raises :
    _process_data [(str "a", str "X"), (str "t", str "{a} {b}")] =
      .error (.keyError (str "b")) ∧
    (str "b") ∉ (List.map Prod.fst [(str "a", str "X"), (str "t", str "{a} {b}")]) ∧
    occursIn (str "a") (str "{a} {b}") = true := by decide
